import Mathlib

/-!
Shallow embedding of the browser client of the spotter repository
(src/html/script.js, together with the earlier client revisions
src/unnamed/part_002 and src/unnamed/part_003).

The client keeps a small amount of DOM state (input elements, overlay
containers, display styles, the `selectedMark` global) and reacts to
server-sent messages (`settings`, `update`, `state`, `rings`, `marks`,
`marksize`) plus user actions (`selectMark`, the mark-edit buttons,
`toggleMode`, `enterParam`).  Fractional percentage values are modelled
as rationals (the JS code renders them as "<value>%"), DOM string
content as `String`, JS numbers used as ring values and counters as
`Int`, and `undefined`/absent JSON fields as `Option`.
-/

/-- A fractional position with `left`/`top` fields (percent units). -/
structure Pos where
  left : Rat
  top : Rat
deriving DecidableEq, Repr

/-- One mark entry of a `marks` message: ring value, surface-relative
position and pixel position (src/html/script.js lines 187-226 read
`mark.ring`, `mark.relpos`, `mark.pixpos`). -/
structure Mark where
  ring : Int
  relpos : Pos
  pixpos : Pos
deriving DecidableEq, Repr

/-- One entry of a `rings` message: a fractional rectangle. -/
structure RingSize where
  width : Rat
  height : Rat
  top : Rat
  left : Rat
deriving DecidableEq, Repr

/-- The `pickersize` rectangle of a `state` message. -/
structure PickerSize where
  width : Rat
  height : Rat
deriving DecidableEq, Repr

/-- A `state` message: workflow state string plus optional picker size
(src/html/script.js lines 102-141). -/
structure StateMsg where
  state : String
  pickersize : Option PickerSize
deriving DecidableEq, Repr

/-- An `update` message: debug info entries (in `Object.entries` order,
values already coerced to their displayed string) plus optional
progress percentage (src/html/script.js lines 71-99). -/
structure UpdateMsg where
  infos : List (String × String)
  progress : Option Rat
deriving DecidableEq, Repr

/-- A `marksize` message (src/html/script.js lines 235-243). -/
structure MarkSizeMsg where
  width : Rat
  height : Rat
deriving DecidableEq, Repr

/-- A settings value as it appears in a settings snapshot or in a
posted `{param, value}` request: JS booleans for checkboxes, strings
otherwise. -/
inductive SettingVal where
  | b (b : Bool)
  | s (v : String)
deriving DecidableEq, Repr

/-- JS truthiness coercion applied when a value is assigned to the
`checked` property of an input element. -/
def SettingVal.asBool : SettingVal → Bool
  | .b x => x
  | .s v => v ≠ ""

/-- JS string coercion applied when a value is assigned to the `value`
property of an input element. -/
def SettingVal.asString : SettingVal → String
  | .b x => if x then "true" else "false"
  | .s v => v

/-- A settings snapshot: association list of `param ↦ value` (a JS
object has no duplicate keys; `lookup` returns the first match). -/
def SettingsMsg := List (String × SettingVal)

/-- The JS `in` operator on a settings snapshot object. -/
def SettingsMsg.hasKey (d : SettingsMsg) (k : String) : Bool :=
  (List.lookup k d).isSome

/-- An `<input>` element: `name`, `type`, `checked` and `value`
properties (the properties the client reads and writes). -/
structure InputEle where
  name : String
  type : String
  checked : Bool
  value : String
deriving DecidableEq, Repr

/-- A `<select>` element: `name` and `value` properties. -/
structure SelectEle where
  name : String
  value : String
deriving DecidableEq, Repr

/-- One rendered debug-info row: the key as the row's text and the
value inside a `span` carrying class `statevar`. -/
structure InfoEle where
  label : String
  value : String
  valueClasses : List String
deriving DecidableEq, Repr

/-- A ring overlay element: class list and the styles set by
`parseRings` (widths are percentages; `pointerEvents` a CSS string). -/
structure RingEle where
  classes : List String
  width : Rat
  height : Rat
  top : Rat
  left : Rat
  pointerEvents : String
deriving DecidableEq, Repr

/-- A mark overlay element created by `parseMarks`: class list,
position styles, optional size styles (unset until a `marksize`
message arrives) and the arguments `(iMark, mark.pixpos)` its click
listener passes to `selectMark`. -/
structure MarkEle where
  classes : List String
  top : Rat
  left : Rat
  width : Option Rat
  height : Option Rat
  selectArgs : Nat × Pos
deriving DecidableEq, Repr

/-- A mark-list entry element created by `parseMarks`: class list, bar
width style and text content. -/
structure EntryEle where
  classes : List String
  width : Int
  html : String
deriving DecidableEq, Repr

/-- The `selectedMark` object built by `selectMark`
(src/html/script.js lines 253-256). -/
structure SelMark where
  index : Nat
  pos : Pos
deriving DecidableEq, Repr

/-- The client-side DOM state the script reads and writes. -/
structure ClientState where
  inputs : List InputEle
  selects : List SelectEle
  infos : List InfoEle
  progressWidth : Rat
  progressBarDisplay : String
  pickerWidth : Rat
  pickerHeight : Rat
  pickerDisplay : String
  messageDisplay : String
  disciplineDisplay : String
  ringcorrDisplay : String
  ringsEles : List RingEle
  marksOverlay : List MarkEle
  markList : List EntryEle
  markselectDisplay : String
  ringsumHTML : String
  markleftValue : Rat
  marktopValue : Rat
  selectedMark : Option SelMark
deriving DecidableEq, Repr

/-- `parseSettings` on one input element (src/html/script.js lines
52-60): if the element's name is a key of the snapshot, assign the
value to `checked` for checkboxes and to `value` otherwise. -/
def setInput (d : SettingsMsg) (e : InputEle) : InputEle :=
  match List.lookup e.name d with
  | none => e
  | some v =>
      if e.type = "checkbox" then { e with checked := v.asBool }
      else { e with value := v.asString }

/-- `parseSettings` on one select element (src/html/script.js lines
63-67). -/
def setSelect (d : SettingsMsg) (e : SelectEle) : SelectEle :=
  match List.lookup e.name d with
  | none => e
  | some v => { e with value := v.asString }

/-- `parseSettings` (src/html/script.js lines 48-68): early return on
`undefined`, else update every input and select element from the
snapshot. -/
def parseSettings (data : Option SettingsMsg) (s : ClientState) : ClientState :=
  match data with
  | none => s
  | some d =>
      { s with
        inputs := s.inputs.map (setInput d)
        selects := s.selects.map (setSelect d) }

/-- One debug-info row as built by `parseUpdate` (src/html/script.js
lines 78-88). -/
def mkInfoEle (kv : String × String) : InfoEle :=
  { label := kv.1, value := kv.2, valueClasses := ["statevar"] }

/-- `parseUpdate` (src/html/script.js lines 71-99): rebuild the infos
container, then show the progress bar at `progress`% when a `progress`
field is present, else hide its container. -/
def parseUpdate (data : Option UpdateMsg) (s : ClientState) : ClientState :=
  match data with
  | none => s
  | some d =>
      let s1 := { s with infos := d.infos.map mkInfoEle }
      match d.progress with
      | some p => { s1 with progressWidth := p, progressBarDisplay := "block" }
      | none => { s1 with progressBarDisplay := "none" }

/-- `parseState` (src/html/script.js lines 102-141): size and show the
picker when `pickersize` is present else hide it, then set the
COLLECT message, PREVIEW discipline and DETECT ring-correction
visibility from the state string. -/
def parseState (data : Option StateMsg) (s : ClientState) : ClientState :=
  match data with
  | none => s
  | some d =>
      let s1 :=
        match d.pickersize with
        | some size =>
            { s with
              pickerWidth := size.width
              pickerHeight := size.height
              pickerDisplay := "block" }
        | none => { s with pickerDisplay := "none" }
      { s1 with
        messageDisplay := if d.state = "COLLECT" then "block" else "none"
        disciplineDisplay := if d.state = "PREVIEW" then "block" else "none"
        ringcorrDisplay := if d.state = "DETECT" then "block" else "none" }

/-- One ring overlay element as built by `parseRings` in
src/html/script.js lines 153-161. -/
def mkRingEle (size : RingSize) : RingEle :=
  { classes := ["overlay", "circle"]
    width := size.width
    height := size.height
    top := size.top
    left := size.left
    pointerEvents := "none" }

/-- `parseRings` (src/html/script.js lines 144-165): early return on
`undefined`, else clear the rings container and append one ring
element per entry in list order. -/
def parseRings (data : Option (List RingSize)) (s : ClientState) : ClientState :=
  match data with
  | none => s
  | some sizes => { s with ringsEles := sizes.map mkRingEle }

namespace Part002

/-- One ring overlay element as built by `parseRings` in
src/unnamed/part_002 lines 110-118. -/
def mkRingEle (size : RingSize) : RingEle :=
  { classes := ["overlay", "circle"]
    width := size.width
    height := size.height
    top := size.top
    left := size.left
    pointerEvents := "none" }

/-- `parseRings` of src/unnamed/part_002 lines 101-122, expressed as
its effect on the rings container content: early return leaves the
container unchanged, else it is cleared and one ring element is
appended per entry. -/
def parseRings (data : Option (List RingSize)) (rings : List RingEle) :
    List RingEle :=
  match data with
  | none => rings
  | some sizes => sizes.map mkRingEle

end Part002

/-- The limited ring value `Math.min(mark.ring, 10)`
(src/html/script.js line 191). -/
def limValue (m : Mark) : Int := min m.ring 10

/-- The mark overlay element built for loop index `iMark`
(src/html/script.js lines 196-204 and the click listener of lines
216-220 calling `selectMark(iMark, mark.pixpos)`). -/
def mkMarkOverlayEle (iMark : Nat) (m : Mark) : MarkEle :=
  { classes := ["overlay", "circle", "mark"]
    top := m.relpos.top
    left := m.relpos.left
    width := none
    height := none
    selectArgs := (iMark, m.pixpos) }

/-- The mark-list entry element built for a mark (src/html/script.js
lines 207-213): bar width `10*limValue`%, text `limValue`, with a `+`
appended when the ring value exceeds 10. -/
def mkEntryEle (m : Mark) : EntryEle :=
  { classes := ["bar"]
    width := 10 * limValue m
    html := toString (limValue m) ++ (if m.ring > 10 then "+" else "") }

/-- The loop-local accumulator of `parseMarks`: `ringSum`, `innerSum`
and the contents appended so far to the overlay and list containers. -/
structure MarksAcc where
  ringSum : Int
  innerSum : Int
  overlay : List MarkEle
  list : List EntryEle
deriving DecidableEq, Repr

/-- One iteration of the `parseMarks` loop body (src/html/script.js
lines 187-226) at loop index `im.1` on mark `im.2`. -/
def marksStep (acc : MarksAcc) (im : Nat × Mark) : MarksAcc :=
  { ringSum := acc.ringSum + limValue im.2
    innerSum := acc.innerSum + (if im.2.ring > 10 then 1 else 0)
    overlay := acc.overlay ++ [mkMarkOverlayEle im.1 im.2]
    list := acc.list ++ [mkEntryEle im.2] }

/-- The `parseMarks` loop `for (let iMark = data.length-1; iMark >= 0;
iMark--)`: it visits the indexed entries of `data` in reverse order. -/
def marksLoop (ms : List Mark) : MarksAcc :=
  (ms.enum.reverse).foldl marksStep ⟨0, 0, [], []⟩

/-- `parseMarks` (src/html/script.js lines 170-232): early return on
`undefined`; else clear both containers, hide the selection panel,
null `selectedMark`, run the loop, and render the ring sum with the
overflow count appended when positive. -/
def parseMarks (data : Option (List Mark)) (s : ClientState) : ClientState :=
  match data with
  | none => s
  | some ms =>
      let acc := marksLoop ms
      { s with
        marksOverlay := acc.overlay
        markList := acc.list
        markselectDisplay := "none"
        selectedMark := none
        ringsumHTML :=
          toString acc.ringSum ++
            (if acc.innerSum > 0 then
              " (+" ++ toString acc.innerSum ++ ")"
            else "") }

/-- `parseMarkSize` (src/html/script.js lines 235-243): set the size
styles of every element of class `mark`. -/
def parseMarkSize (data : Option MarkSizeMsg) (s : ClientState) : ClientState :=
  match data with
  | none => s
  | some d =>
      { s with
        marksOverlay := s.marksOverlay.map fun m =>
          { m with width := some d.width, height := some d.height } }

/-- `selectMark` (src/html/script.js lines 246-257): show the
selection panel, preload the correction inputs with the mark's pixel
position, and store the selection object. -/
def selectMark (markIndex : Nat) (markPos : Pos) (s : ClientState) : ClientState :=
  { s with
    markselectDisplay := "block"
    markleftValue := markPos.left
    marktopValue := markPos.top
    selectedMark := some { index := markIndex, pos := markPos } }

/-- A mark-edit request body posted to `/mark`. -/
structure MarkRequest where
  action : String
  index : Nat
  pos : Option Pos
deriving DecidableEq, Repr

/-- `correctMark` (src/html/script.js lines 270-281): reads
`selectedMark.index` with no null check — on a null `selectedMark` the
handler throws and nothing is posted (modelled as `none`); otherwise
it posts action `correct` with the current correction-input values. -/
def correctMark (s : ClientState) : Option MarkRequest :=
  s.selectedMark.map fun sel =>
    { action := "correct"
      index := sel.index
      pos := some { left := s.markleftValue, top := s.marktopValue } }

/-- `copyMark` (src/html/script.js lines 284-286): same null-deref
behaviour; posts action `copy` with the selected index and no pos. -/
def copyMark (s : ClientState) : Option MarkRequest :=
  s.selectedMark.map fun sel =>
    { action := "copy", index := sel.index, pos := none }

/-- `deleteMark` (src/html/script.js lines 289-291): same null-deref
behaviour; posts action `delete` with the selected index and no pos. -/
def deleteMark (s : ClientState) : Option MarkRequest :=
  s.selectedMark.map fun sel =>
    { action := "delete", index := sel.index, pos := none }

/-- A `{param, value}` request body posted to `/setting`. -/
structure SettingRequest where
  param : String
  value : SettingVal
deriving DecidableEq, Repr

/-- `enterParam` (src/html/script.js lines 25-32): posts the element's
name and its checked state for checkboxes, its text value otherwise. -/
def enterParam (e : InputEle) : SettingRequest :=
  { param := e.name
    value := if e.type = "checkbox" then .b e.checked else .s e.value }

/-- `toggleMode` (src/html/script.js lines 294-305): posts mode
`start` and relabels the button `Stop` when it showed `Start`, else
posts mode `preview` and relabels it `Start`.  Returns the posted
request and the new button label. -/
def toggleMode (btnValue : String) : SettingRequest × String :=
  if btnValue = "Start" then
    ({ param := "mode", value := .s "start" }, "Stop")
  else
    ({ param := "mode", value := .s "preview" }, "Start")

/-- The client events that can touch the DOM state: one per field of a
`/change` server message (dispatched by `changeSource.onmessage`,
src/html/script.js lines 37-45), the `selectMark` user action, and
the three mark-edit button actions (which only read state and post). -/
inductive Event where
  | settingsMsg (d : Option SettingsMsg)
  | updateMsg (d : Option UpdateMsg)
  | stateMsg (d : Option StateMsg)
  | ringsMsg (d : Option (List RingSize))
  | marksMsg (d : Option (List Mark))
  | marksizeMsg (d : Option MarkSizeMsg)
  | select (i : Nat) (p : Pos)
  | editCorrect
  | editCopy
  | editDelete

/-- The state transition of one event (the mark-edit handlers post a
request but mutate no DOM state). -/
def step (s : ClientState) (e : Event) : ClientState :=
  match e with
  | .settingsMsg d => parseSettings d s
  | .updateMsg d => parseUpdate d s
  | .stateMsg d => parseState d s
  | .ringsMsg d => parseRings d s
  | .marksMsg d => parseMarks d s
  | .marksizeMsg d => parseMarkSize d s
  | .select i p => selectMark i p s
  | .editCorrect => s
  | .editCopy => s
  | .editDelete => s

/-- Run a sequence of events. -/
def run (s : ClientState) (tr : List Event) : ClientState :=
  tr.foldl step s

/-- Is this event an invocation of `selectMark`? -/
def Event.isSelect : Event → Bool
  | .select _ _ => true
  | _ => false

/-- Is this event a `marks` message with a defined mark list (the only
event that re-nulls `selectedMark`)? -/
def Event.isMarksUpdate : Event → Bool
  | .marksMsg (some _) => true
  | _ => false

/-- A concrete client state used to evaluate the theorems on explicit
inputs: the page as it stands before any message arrived. -/
def sampleState : ClientState :=
  { inputs := [{ name := "contrast", type := "number", checked := false, value := "0" },
               { name := "difference", type := "checkbox", checked := false, value := "" }]
    selects := [{ name := "target", value := "" }]
    infos := []
    progressWidth := 0
    progressBarDisplay := "none"
    pickerWidth := 0
    pickerHeight := 0
    pickerDisplay := "none"
    messageDisplay := "none"
    disciplineDisplay := "none"
    ringcorrDisplay := "none"
    ringsEles := []
    marksOverlay := []
    markList := []
    markselectDisplay := "none"
    ringsumHTML := ""
    markleftValue := 0
    marktopValue := 0
    selectedMark := none }

/-- A concrete client state in which mark number 2 is selected. -/
def sampleSelState : ClientState :=
  { sampleState with
    selectedMark := some { index := 2, pos := { left := 3, top := 4 } }
    markselectDisplay := "block"
    markleftValue := 5
    marktopValue := 6 }

/-! ### Lemmas about the `parseMarks` loop -/

theorem marksFold_ringSum (l : List (Nat × Mark)) (a : MarksAcc) :
    (l.foldl marksStep a).ringSum = a.ringSum + (l.map (fun im => limValue im.2)).sum := by
  induction l generalizing a with
  | nil => simp
  | cons hd tl ih =>
      simp only [List.foldl_cons, List.map_cons, List.sum_cons, ih, marksStep]
      ring

theorem marksFold_innerSum (l : List (Nat × Mark)) (a : MarksAcc) :
    (l.foldl marksStep a).innerSum =
      a.innerSum + (l.countP (fun im => im.2.ring > 10) : Int) := by
  induction l generalizing a with
  | nil => simp
  | cons hd tl ih =>
      simp only [List.foldl_cons, ih, marksStep, List.countP_cons]
      by_cases h : hd.2.ring > 10
      · simp [h]
        ring
      · simp [h]

theorem marksLoop_ringSum (ms : List Mark) :
    (marksLoop ms).ringSum = (ms.map limValue).sum := by
  unfold marksLoop
  rw [marksFold_ringSum]
  have h1 : (ms.enum.reverse.map (fun im => limValue im.2)) =
      (ms.enum.map (fun im => limValue im.2)).reverse := List.map_reverse _ _
  have h2 : ms.enum.map (fun im => limValue im.2) = (ms.enum.map Prod.snd).map limValue := by
    rw [List.map_map]; rfl
  rw [h1, List.sum_reverse, h2, List.enum_map_snd]
  simp

theorem marksLoop_innerSum (ms : List Mark) :
    (marksLoop ms).innerSum = (ms.countP (fun m => m.ring > 10) : Int) := by
  unfold marksLoop
  rw [marksFold_innerSum]
  have h1 : ms.enum.reverse.countP (fun im => im.2.ring > 10) =
      ms.enum.countP (fun im => im.2.ring > 10) := by
    simp
  have h2 : ms.enum.countP (fun im => im.2.ring > 10) =
      (ms.enum.map Prod.snd).countP (fun m => m.ring > 10) := by
    rw [List.countP_map]; rfl
  rw [h1, h2, List.enum_map_snd]
  simp

/-- C1: for every marks message (entries carrying integer ring
values), `parseMarks` renders a ring sum equal to Σ min(ring, 10) over
all marks, and an overflow count equal to the number of marks with
ring > 10, the latter appended to the displayed sum exactly when it is
positive. -/
theorem parseMarks_ringsum_display (ms : List Mark) (s : ClientState) :
    (parseMarks (some ms) s).ringsumHTML =
      toString ((ms.map (fun m => min m.ring 10)).sum) ++
        (if 0 < ms.countP (fun m => m.ring > 10) then
          " (+" ++ toString ((ms.countP (fun m => m.ring > 10) : Int)) ++ ")"
        else "") := by
  show (toString (marksLoop ms).ringSum ++ _) = _
  rw [marksLoop_ringSum, marksLoop_innerSum]
  have hcond : ((ms.countP (fun m => m.ring > 10) : Int) > 0) ↔
      (0 < ms.countP (fun m => m.ring > 10)) := by
    exact_mod_cast Iff.rfl
  have hlim : (ms.map limValue) = ms.map (fun m => min m.ring 10) := rfl
  rw [hlim]
  by_cases h : 0 < ms.countP (fun m => m.ring > 10)
  · rw [if_pos (hcond.mpr h), if_pos h]
  · rw [if_neg (fun hc => h (hcond.mp hc)), if_neg h]

/-- C6: for every rings message, `parseRings` replaces the ring
container content with exactly one ring element per entry, in list
order, whose width/height/top/left styles equal that entry's fields. -/
theorem parseRings_builds_entries (sizes : List RingSize) (s : ClientState) :
    ((parseRings (some sizes) s).ringsEles).length = sizes.length ∧
    (∀ i : Nat, ((parseRings (some sizes) s).ringsEles).get? i =
      (sizes.get? i).map mkRingEle) ∧
    (∀ sz : RingSize,
      (mkRingEle sz).width = sz.width ∧ (mkRingEle sz).height = sz.height ∧
      (mkRingEle sz).top = sz.top ∧ (mkRingEle sz).left = sz.left ∧
      (mkRingEle sz).classes = ["overlay", "circle"] ∧
      (mkRingEle sz).pointerEvents = "none") := by
  refine ⟨?_, ?_, ?_⟩
  · simp [parseRings]
  · intro i; simp [parseRings, List.get?_eq_getElem?, List.getElem?_map]
  · intro sz; exact ⟨rfl, rfl, rfl, rfl, rfl, rfl⟩

/-- C10: the `parseRings` of src/html/script.js and the `parseRings`
of src/unnamed/part_002 are extensionally equal: on every rings
message (and every prior container content) they build the same
sequence of ring elements, with the same class lists and styles. -/
theorem parseRings_equiv_part002 (data : Option (List RingSize)) (s : ClientState) :
    (parseRings data s).ringsEles = Part002.parseRings data s.ringsEles := by
  cases data with
  | none => rfl
  | some sizes =>
      show sizes.map mkRingEle = sizes.map Part002.mkRingEle
      rfl

/-- C4: for every state message, `parseState` shows the picker overlay
sized to the message's fractional width and height exactly when the
message carries a `pickersize` rectangle, and hides it otherwise. -/
theorem parseState_picker_visibility (msg : StateMsg) (s : ClientState) :
    ((parseState (some msg) s).pickerDisplay = "block" ↔ msg.pickersize.isSome = true) ∧
    (∀ sz : PickerSize, msg.pickersize = some sz →
      (parseState (some msg) s).pickerWidth = sz.width ∧
      (parseState (some msg) s).pickerHeight = sz.height ∧
      (parseState (some msg) s).pickerDisplay = "block") ∧
    (msg.pickersize = none → (parseState (some msg) s).pickerDisplay = "none") := by
  obtain ⟨st, ps⟩ := msg
  cases ps with
  | none =>
      refine ⟨?_, ?_, ?_⟩
      · simp [parseState]
      · intro sz hsz; cases hsz
      · intro _; rfl
  | some sz =>
      refine ⟨?_, ?_, ?_⟩
      · simp [parseState]
      · intro sz2 hsz2
        obtain rfl : sz = sz2 := by injection hsz2
        exact ⟨rfl, rfl, rfl⟩
      · intro hn; cases hn

/-- Witness for C4 at a concrete PREVIEW message carrying a picker
rectangle of 30% by 40%. -/
theorem parseState_picker_visibility_witness :
    (parseState (some { state := "PREVIEW", pickersize := some { width := 30, height := 40 } })
        sampleState).pickerDisplay = "block" ∧
    (parseState (some { state := "PREVIEW", pickersize := some { width := 30, height := 40 } })
        sampleState).pickerWidth = 30 := by
  have h := parseState_picker_visibility
    { state := "PREVIEW", pickersize := some { width := 30, height := 40 } } sampleState
  exact ⟨(h.2.1 { width := 30, height := 40 } rfl).2.2, (h.2.1 { width := 30, height := 40 } rfl).1⟩

/-- C7: for every update message, `parseUpdate` shows the progress bar
with width equal to the message's progress value exactly when a
`progress` field is present (hiding the bar otherwise), and always
renders the debug info map as one label/value row per entry. -/
theorem parseUpdate_progress_infos (msg : UpdateMsg) (s : ClientState) :
    ((parseUpdate (some msg) s).progressBarDisplay = "block" ↔ msg.progress.isSome = true) ∧
    (∀ p : Rat, msg.progress = some p →
      (parseUpdate (some msg) s).progressWidth = p ∧
      (parseUpdate (some msg) s).progressBarDisplay = "block") ∧
    (msg.progress = none → (parseUpdate (some msg) s).progressBarDisplay = "none") ∧
    ((parseUpdate (some msg) s).infos = msg.infos.map mkInfoEle) ∧
    ((parseUpdate (some msg) s).infos.length = msg.infos.length) ∧
    (∀ kv : String × String,
      (mkInfoEle kv).label = kv.1 ∧ (mkInfoEle kv).value = kv.2 ∧
      (mkInfoEle kv).valueClasses = ["statevar"]) := by
  obtain ⟨infos, prog⟩ := msg
  cases prog with
  | none =>
      refine ⟨?_, ?_, ?_, ?_, ?_, ?_⟩
      · simp [parseUpdate]
      · intro p hp; cases hp
      · intro _; rfl
      · rfl
      · simp [parseUpdate]
      · intro kv; exact ⟨rfl, rfl, rfl⟩
  | some p =>
      refine ⟨?_, ?_, ?_, ?_, ?_, ?_⟩
      · simp [parseUpdate]
      · intro p2 hp2
        obtain rfl : p = p2 := by injection hp2
        exact ⟨rfl, rfl⟩
      · intro hn; cases hn
      · rfl
      · simp [parseUpdate]
      · intro kv; exact ⟨rfl, rfl, rfl⟩

/-- Witness for C7 at a concrete message with one info row and a
progress of 55%. -/
theorem parseUpdate_progress_infos_witness :
    (parseUpdate (some { infos := [("state", "COLLECT")], progress := some 55 })
        sampleState).progressBarDisplay = "block" ∧
    (parseUpdate (some { infos := [("state", "COLLECT")], progress := some 55 })
        sampleState).progressWidth = 55 ∧
    (parseUpdate (some { infos := [("state", "COLLECT")], progress := some 55 })
        sampleState).infos = [{ label := "state", value := "COLLECT", valueClasses := ["statevar"] }] := by
  have h := parseUpdate_progress_infos
    { infos := [("state", "COLLECT")], progress := some 55 } sampleState
  exact ⟨(h.2.1 55 rfl).2, (h.2.1 55 rfl).1, h.2.2.2.1⟩

/-- C5: `parseSettings` mutates exactly the input and select elements
whose name is a key of the snapshot, setting each to the snapshot's
value (checked state for checkboxes, text value otherwise); elements
whose name is absent, and every other piece of document state, are
left unchanged. -/
theorem parseSettings_targets_and_frame (d : SettingsMsg) (s : ClientState) :
    ((parseSettings (some d) s).inputs = s.inputs.map (setInput d)) ∧
    ((parseSettings (some d) s).selects = s.selects.map (setSelect d)) ∧
    (∀ e : InputEle, d.hasKey e.name = false → setInput d e = e) ∧
    (∀ e : InputEle, ∀ v : SettingVal, List.lookup e.name d = some v →
      setInput d e =
        (if e.type = "checkbox" then { e with checked := v.asBool }
         else { e with value := v.asString })) ∧
    (∀ e : SelectEle, d.hasKey e.name = false → setSelect d e = e) ∧
    (∀ e : SelectEle, ∀ v : SettingVal, List.lookup e.name d = some v →
      setSelect d e = { e with value := v.asString }) ∧
    ((parseSettings (some d) s).infos = s.infos ∧
     (parseSettings (some d) s).progressWidth = s.progressWidth ∧
     (parseSettings (some d) s).progressBarDisplay = s.progressBarDisplay ∧
     (parseSettings (some d) s).pickerWidth = s.pickerWidth ∧
     (parseSettings (some d) s).pickerHeight = s.pickerHeight ∧
     (parseSettings (some d) s).pickerDisplay = s.pickerDisplay ∧
     (parseSettings (some d) s).messageDisplay = s.messageDisplay ∧
     (parseSettings (some d) s).disciplineDisplay = s.disciplineDisplay ∧
     (parseSettings (some d) s).ringcorrDisplay = s.ringcorrDisplay ∧
     (parseSettings (some d) s).ringsEles = s.ringsEles ∧
     (parseSettings (some d) s).marksOverlay = s.marksOverlay ∧
     (parseSettings (some d) s).markList = s.markList ∧
     (parseSettings (some d) s).markselectDisplay = s.markselectDisplay ∧
     (parseSettings (some d) s).ringsumHTML = s.ringsumHTML ∧
     (parseSettings (some d) s).markleftValue = s.markleftValue ∧
     (parseSettings (some d) s).marktopValue = s.marktopValue ∧
     (parseSettings (some d) s).selectedMark = s.selectedMark) := by
  refine ⟨rfl, rfl, ?_, ?_, ?_, ?_, ?_⟩
  · intro e he
    unfold setInput
    cases hl : List.lookup e.name d with
    | none => rfl
    | some v => simp [SettingsMsg.hasKey, hl] at he
  · intro e v hv
    unfold setInput
    rw [hv]
  · intro e he
    unfold setSelect
    cases hl : List.lookup e.name d with
    | none => rfl
    | some v => simp [SettingsMsg.hasKey, hl] at he
  · intro e v hv
    unfold setSelect
    rw [hv]
  · exact ⟨rfl, rfl, rfl, rfl, rfl, rfl, rfl, rfl, rfl, rfl, rfl, rfl, rfl, rfl, rfl, rfl, rfl⟩

/-- Witness for C5 at a concrete snapshot touching the `difference`
checkbox but not the `contrast` input of `sampleState`. -/
theorem parseSettings_targets_and_frame_witness :
    (SettingsMsg.hasKey [("difference", SettingVal.b true)] "contrast" = false ∧
      setInput [("difference", SettingVal.b true)]
        { name := "contrast", type := "number", checked := false, value := "0" } =
        { name := "contrast", type := "number", checked := false, value := "0" }) ∧
    (List.lookup "difference" [("difference", SettingVal.b true)] = some (SettingVal.b true) ∧
      setInput [("difference", SettingVal.b true)]
        { name := "difference", type := "checkbox", checked := false, value := "" } =
        { name := "difference", type := "checkbox", checked := true, value := "" }) ∧
    (parseSettings (some [("difference", SettingVal.b true)]) sampleState).selectedMark =
      sampleState.selectedMark := by
  have h := parseSettings_targets_and_frame [("difference", SettingVal.b true)] sampleState
  refine ⟨⟨by decide, h.2.2.1 _ (by decide)⟩, ⟨by decide, ?_⟩,
    (h.2.2.2.2.2.2).2.2.2.2.2.2.2.2.2.2.2.2.2.2.2.2⟩
  have h2 := h.2.2.2.1
    { name := "difference", type := "checkbox", checked := false, value := "" }
    (SettingVal.b true) (by decide)
  simpa using h2

/-- C2: with a mark selected, every request the three edit handlers
post to `/mark` has shape `{action, index}` with action among
`correct`, `copy`, `delete`, index equal to the selected mark's
positional index, and a `pos` field present exactly when the action is
`correct` (carrying the correction inputs' left/top values). -/
theorem markEdit_request_shape (s : ClientState) (sel : SelMark)
    (h : s.selectedMark = some sel) :
    correctMark s = some { action := "correct", index := sel.index,
                           pos := some { left := s.markleftValue, top := s.marktopValue } } ∧
    copyMark s = some { action := "copy", index := sel.index, pos := none } ∧
    deleteMark s = some { action := "delete", index := sel.index, pos := none } ∧
    (∀ r ∈ List.filterMap id [correctMark s, copyMark s, deleteMark s],
      (r.action = "correct" ∨ r.action = "copy" ∨ r.action = "delete") ∧
      r.index = sel.index ∧ ((r.pos).isSome = true ↔ r.action = "correct")) := by
  have hc : correctMark s = some { action := "correct", index := sel.index,
                                     pos := some { left := s.markleftValue, top := s.marktopValue } } := by
    simp [correctMark, h]
  have hk : copyMark s = some { action := "copy", index := sel.index, pos := none } := by
    simp [copyMark, h]
  have hd : deleteMark s = some { action := "delete", index := sel.index, pos := none } := by
    simp [deleteMark, h]
  refine ⟨hc, hk, hd, ?_⟩
  intro r hr
  rw [hc, hk, hd] at hr
  simp only [List.filterMap, id, List.mem_cons, List.not_mem_nil, or_false] at hr
  rcases hr with rfl | rfl | rfl
  · exact ⟨Or.inl rfl, rfl, by simp⟩
  · exact ⟨Or.inr (Or.inl rfl), rfl, by simp⟩
  · exact ⟨Or.inr (Or.inr rfl), rfl, by simp⟩

/-- Witness for C2 on `sampleSelState`, in which mark 2 is selected
and the correction inputs read left 5, top 6. -/
theorem markEdit_request_shape_witness :
    sampleSelState.selectedMark = some { index := 2, pos := { left := 3, top := 4 } } ∧
    correctMark sampleSelState = some { action := "correct", index := 2,
                                          pos := some { left := 5, top := 6 } } ∧
    copyMark sampleSelState = some { action := "copy", index := 2, pos := none } := by
  have h := markEdit_request_shape sampleSelState
    { index := 2, pos := { left := 3, top := 4 } } rfl
  exact ⟨rfl, h.1, h.2.1⟩

/-- C3: every `/setting` request posted by `enterParam` carries the
originating element's name as `param` and its checked state (checkbox)
or text value (otherwise) as `value`; `toggleMode` posts the `mode`
param with value `start` when the button showed `Start` and `preview`
in every other case — never a third value. -/
theorem settings_request_shape (e : InputEle) (btn : String) :
    (enterParam e).param = e.name ∧
    (enterParam e).value =
      (if e.type = "checkbox" then SettingVal.b e.checked else SettingVal.s e.value) ∧
    (toggleMode btn).1.param = "mode" ∧
    ((toggleMode btn).1.value = SettingVal.s "start" ∨
      (toggleMode btn).1.value = SettingVal.s "preview") ∧
    (btn = "Start" →
      (toggleMode btn).1.value = SettingVal.s "start" ∧ (toggleMode btn).2 = "Stop") ∧
    (btn ≠ "Start" →
      (toggleMode btn).1.value = SettingVal.s "preview" ∧ (toggleMode btn).2 = "Start") := by
  refine ⟨rfl, rfl, ?_, ?_, ?_, ?_⟩
  · unfold toggleMode
    by_cases hb : btn = "Start" <;> simp [hb]
  · unfold toggleMode
    by_cases hb : btn = "Start"
    · rw [if_pos hb]; exact Or.inl rfl
    · rw [if_neg hb]; exact Or.inr rfl
  · intro hb
    unfold toggleMode
    rw [if_pos hb]
    exact ⟨rfl, rfl⟩
  · intro hb
    unfold toggleMode
    rw [if_neg hb]
    exact ⟨rfl, rfl⟩

/-- Witness for C3 on a concrete text input and the `Start` button. -/
theorem settings_request_shape_witness :
    (enterParam { name := "contrast", type := "number", checked := false, value := "7" }).param
      = "contrast" ∧
    (toggleMode "Start").1.value = SettingVal.s "start" ∧
    (toggleMode "Start").2 = "Stop" := by
  obtain ⟨h1, h2, h3, h4, h5, h6⟩ := settings_request_shape
    { name := "contrast", type := "number", checked := false, value := "7" } "Start"
  exact ⟨h1, (h5 rfl).1, (h5 rfl).2⟩

/-! ### Selection state across event traces -/

theorem step_preserves_cleared (s : ClientState) (e : Event)
    (hsel : s.selectedMark = none) (hdisp : s.markselectDisplay = "none")
    (hne : e.isSelect = false) :
    (step s e).selectedMark = none ∧ (step s e).markselectDisplay = "none" := by
  cases e with
  | settingsMsg d => cases d <;> exact ⟨hsel, hdisp⟩
  | updateMsg d =>
      cases d with
      | none => exact ⟨hsel, hdisp⟩
      | some m =>
          obtain ⟨infos, prog⟩ := m
          cases prog <;> exact ⟨hsel, hdisp⟩
  | stateMsg d =>
      cases d with
      | none => exact ⟨hsel, hdisp⟩
      | some m =>
          obtain ⟨st, ps⟩ := m
          cases ps <;> exact ⟨hsel, hdisp⟩
  | ringsMsg d => cases d <;> exact ⟨hsel, hdisp⟩
  | marksMsg d =>
      cases d with
      | none => exact ⟨hsel, hdisp⟩
      | some ms => exact ⟨rfl, rfl⟩
  | marksizeMsg d => cases d <;> exact ⟨hsel, hdisp⟩
  | select i p => simp [Event.isSelect] at hne
  | editCorrect => exact ⟨hsel, hdisp⟩
  | editCopy => exact ⟨hsel, hdisp⟩
  | editDelete => exact ⟨hsel, hdisp⟩

theorem run_preserves_cleared (tr : List Event) (s : ClientState)
    (hsel : s.selectedMark = none) (hdisp : s.markselectDisplay = "none")
    (hno : ∀ e ∈ tr, e.isSelect = false) :
    (run s tr).selectedMark = none ∧ (run s tr).markselectDisplay = "none" := by
  induction tr generalizing s with
  | nil => exact ⟨hsel, hdisp⟩
  | cons hd tl ih =>
      have h := step_preserves_cleared s hd hsel hdisp (hno hd (List.mem_cons_self _ _))
      exact ih (step s hd) h.1 h.2 (fun e he => hno e (List.mem_cons_of_mem _ he))

/-- C8: running `parseMarks` on a marks message hides the
mark-selection panel and nulls `selectedMark`, and both stay that way
across any further events until `selectMark` is next invoked. -/
theorem parseMarks_clears_selection (ms : List Mark) (s : ClientState)
    (tr : List Event) (hno : ∀ e ∈ tr, e.isSelect = false) :
    (parseMarks (some ms) s).selectedMark = none ∧
    (parseMarks (some ms) s).markselectDisplay = "none" ∧
    (run (parseMarks (some ms) s) tr).selectedMark = none ∧
    (run (parseMarks (some ms) s) tr).markselectDisplay = "none" := by
  have h1 : (parseMarks (some ms) s).selectedMark = none := rfl
  have h2 : (parseMarks (some ms) s).markselectDisplay = "none" := rfl
  have h3 := run_preserves_cleared tr _ h1 h2 hno
  exact ⟨h1, h2, h3.1, h3.2⟩

/-- Witness for C8: a one-mark message on the state with a selection,
followed by a rings message that must not restore the selection. -/
theorem parseMarks_clears_selection_witness :
    (∀ e ∈ [Event.ringsMsg none], e.isSelect = false) ∧
    (run (parseMarks
        (some [{ ring := 11, relpos := { left := 1, top := 2 },
                 pixpos := { left := 3, top := 4 } }]) sampleSelState)
      [Event.ringsMsg none]).selectedMark = none := by
  have h := parseMarks_clears_selection
    [{ ring := 11, relpos := { left := 1, top := 2 },
       pixpos := { left := 3, top := 4 } }] sampleSelState
    [Event.ringsMsg none] (by intro e he; rw [List.mem_singleton] at he; subst he; rfl)
  exact ⟨(by intro e he; rw [List.mem_singleton] at he; subst he; rfl), h.2.2.1⟩

theorem step_preserves_selected (s : ClientState) (e : Event)
    (hs : s.selectedMark.isSome = true) (hne : e.isMarksUpdate = false) :
    ((step s e).selectedMark).isSome = true := by
  cases e with
  | settingsMsg d => cases d <;> exact hs
  | updateMsg d =>
      cases d with
      | none => exact hs
      | some m =>
          obtain ⟨infos, prog⟩ := m
          cases prog <;> exact hs
  | stateMsg d =>
      cases d with
      | none => exact hs
      | some m =>
          obtain ⟨st, ps⟩ := m
          cases ps <;> exact hs
  | ringsMsg d => cases d <;> exact hs
  | marksMsg d =>
      cases d with
      | none => exact hs
      | some m => simp [Event.isMarksUpdate] at hne
  | marksizeMsg d => cases d <;> exact hs
  | select i p => rfl
  | editCorrect => exact hs
  | editCopy => exact hs
  | editDelete => exact hs

theorem run_preserves_selected (tr : List Event) (s : ClientState)
    (hs : s.selectedMark.isSome = true)
    (hno : ∀ e ∈ tr, e.isMarksUpdate = false) :
    ((run s tr).selectedMark).isSome = true := by
  induction tr generalizing s with
  | nil => exact hs
  | cons hd tl ih =>
      exact ih (step s hd)
        (step_preserves_selected s hd hs (hno hd (List.mem_cons_self _ _)))
        (fun e he => hno e (List.mem_cons_of_mem _ he))

/-- C9: after a trace in which `selectMark` has run and no later marks
message arrived, `selectedMark` is non-null and the three edit
handlers successfully dereference it and post a request; on a state
with no selection, all three throw on the null dereference and post
nothing. -/
theorem markEdit_null_safety (s0 : ClientState) (tr1 tr2 : List Event)
    (i : Nat) (p : Pos)
    (hno : ∀ e ∈ tr2, e.isMarksUpdate = false)
    (s : ClientState) (hnull : s.selectedMark = none) :
    (((run s0 (tr1 ++ Event.select i p :: tr2)).selectedMark).isSome = true ∧
     (correctMark (run s0 (tr1 ++ Event.select i p :: tr2))).isSome = true ∧
     (copyMark (run s0 (tr1 ++ Event.select i p :: tr2))).isSome = true ∧
     (deleteMark (run s0 (tr1 ++ Event.select i p :: tr2))).isSome = true) ∧
    (correctMark s = none ∧ copyMark s = none ∧ deleteMark s = none) := by
  have hsplit : run s0 (tr1 ++ Event.select i p :: tr2) =
      run (step (run s0 tr1) (Event.select i p)) tr2 := by
    unfold run
    rw [List.foldl_append, List.foldl_cons]
  have hsel : ((step (run s0 tr1) (Event.select i p)).selectedMark).isSome = true := rfl
  have hsome := run_preserves_selected tr2 _ hsel hno
  rw [← hsplit] at hsome
  obtain ⟨v, hv⟩ := Option.isSome_iff_exists.mp hsome
  refine ⟨⟨hsome, ?_, ?_, ?_⟩, ?_, ?_, ?_⟩
  · simp [correctMark, hv]
  · simp [copyMark, hv]
  · simp [deleteMark, hv]
  · simp [correctMark, hnull]
  · simp [copyMark, hnull]
  · simp [deleteMark, hnull]

/-- Witness for C9: a selection at index 0 with no later marks
message, and the unselected `sampleState` on which every edit handler
throws and posts nothing. -/
theorem markEdit_null_safety_witness :
    (∀ e ∈ ([] : List Event), e.isMarksUpdate = false) ∧
    sampleState.selectedMark = none ∧
    ((run sampleState ([] ++ Event.select 0 { left := 1, top := 2 } :: [])).selectedMark).isSome
      = true ∧
    correctMark sampleState = none ∧ copyMark sampleState = none ∧
    deleteMark sampleState = none := by
  have h := markEdit_null_safety sampleState [] [] 0 { left := 1, top := 2 }
    (by intro e he; cases he) sampleState rfl
  exact ⟨(by intro e he; cases he), rfl, h.1.1, h.2.1, h.2.2.1, h.2.2.2⟩
